import Mathlib

/-!
A verification development for the Loki source connector
(`src/dataflow/src/source/loki.rs`): a log-tailing source that reads from
Loki's websocket `tail` endpoint, decodes JSON payloads into rows and
inserts them into a downstream transactional sink.

The embedding is shallow:
* pure Rust data types and functions become Lean structures and functions;
* the JSON wire format is modelled by an explicit `Json` AST; the byte-level
  JSON parser (serde_json's lexer) is an external collaborator, so a raw
  websocket message is modelled by its emptiness flag together with the
  result of parsing its bytes (`none` when the bytes are not valid JSON);
* the shape-checking of the derived `Deserialize` impls for `TailResponse`,
  `Stream` and `LogEntry` is modelled faithfully over the `Json` AST
  (required fields, unknown fields ignored; each struct decodes from a JSON
  object by field name or, as serde_json's derived impls also do, from a
  positional JSON array of its fields in declaration order — the array form
  is the one Loki uses on the wire for `values` entries);
* the `start` run loop is modelled as a function over a finite script of
  connection attempts and websocket events, threading a nanosecond clock and
  a sink-acceptance predicate, and producing a trace of connection requests,
  sleeps, opened transactions, decode invocations, warnings and inserted
  rows. The real loop is infinite; a run that consumes its whole script
  without a fatal error ends in the `exhausted` outcome.
-/

namespace Loki

/-- A JSON value (the wire format of the Loki tail endpoint). Objects keep
their fields as an ordered association list. -/
inductive Json where
  | null
  | bool (b : Bool)
  | num (n : Int)
  | str (s : String)
  | arr (elems : List Json)
  | obj (fields : List (String × Json))

/-- `struct LogEntry<'a> { ts: &'a str, line: Cow<'a, str> }` (loki.rs:216-222). -/
structure LogEntry where
  ts : String
  line : String
  deriving Repr, DecidableEq

/-- `struct Stream<'a> { labels: HashMap<Cow,Cow>, values: Vec<LogEntry> }`
(loki.rs:208-214).  The `HashMap` of labels is modelled as an ordered
association list. -/
structure Stream where
  labels : List (String × String)
  values : List LogEntry
  deriving Repr, DecidableEq

/-- `struct TailResponse<'a> { streams: Vec<Stream<'a>> }` (loki.rs:202-206). -/
structure TailResponse where
  streams : List Stream
  deriving Repr, DecidableEq

/-- `struct LokiConnectionInfo { user, pw, endpoint }` (loki.rs:37-42). -/
structure LokiConnectionInfo where
  user : Option String
  pw : Option String
  endpoint : String
  deriving Repr, DecidableEq

/-- `LokiConnectionInfo::with_user` (loki.rs:54-59): sets the username only
when the argument is present. -/
def LokiConnectionInfo.with_user (self : LokiConnectionInfo) (user : Option String) :
    LokiConnectionInfo :=
  if user.isSome then { self with user := user } else self

/-- `LokiConnectionInfo::with_password` (loki.rs:62-67): sets the password
only when the argument is present. -/
def LokiConnectionInfo.with_password (self : LokiConnectionInfo) (password : Option String) :
    LokiConnectionInfo :=
  if password.isSome then { self with pw := password } else self

/-- `LokiConnectionInfo::with_endpoint` (loki.rs:70-75): sets the endpoint
only when the argument is present. -/
def LokiConnectionInfo.with_endpoint (self : LokiConnectionInfo) (address : Option String) :
    LokiConnectionInfo :=
  match address with
  | some address => { self with endpoint := address }
  | none => self

/-- `struct LokiSourceReader` (loki.rs:30-34).  The `source_id` field only
tags error values and is omitted. -/
structure LokiSourceReader where
  conn_info : LokiConnectionInfo
  query : String
  deriving Repr, DecidableEq

/-- `LokiSourceReader::new` (loki.rs:80-91): appends the tail path to the
configured endpoint. -/
def LokiSourceReader.new (conn_info : LokiConnectionInfo) (query : String) :
    LokiSourceReader :=
  { conn_info := { conn_info with endpoint := conn_info.endpoint ++ "/loki/api/v1/tail" }
    query := query }

/-! ### The serde-derived decoder, over the `Json` AST

`serde_json::from_slice::<TailResponse>` (loki.rs:159) first lexes the bytes
(external collaborator) and then shape-checks the resulting JSON value
against the derived `Deserialize` impls.  The shape-checking is modelled
here: a struct is decoded from a JSON object by looking up each declared
field (missing field is an error, unknown fields are ignored) or — as
serde_json's `deserialize_struct` also allows for derived impls — from a
positional JSON array holding exactly the struct's fields in declaration
order.  The array form is the encoding Loki uses on the wire for `values`
entries (`[ts, line]`), and it is equally accepted for `Stream`
(`[labels, values]`) and for the `TailResponse` envelope (`[streams]`). -/

/-- Decode a JSON string (serde: any other value is a type error). -/
def decodeString : Json → Option String
  | .str s => some s
  | _ => none

/-- Sequence a fallible decoder over a list, failing on the first error
(the behaviour of serde's sequence/map visitors). -/
def mapMO (f : α → Option β) : List α → Option (List β)
  | [] => some []
  | x :: xs =>
    match f x, mapMO f xs with
    | some y, some ys => some (y :: ys)
    | _, _ => none

/-- Decode the label map of a stream: a JSON object whose values are all
strings (serde's `HashMap<Cow, Cow>` visitor). -/
def decodeLabels : Json → Option (List (String × String))
  | .obj fields => mapMO (fun kv => (decodeString kv.2).map fun s => (kv.1, s)) fields
  | _ => none

/-- Decode one `LogEntry`: either the map form `{ts, line}` or serde's
positional sequence form `[ts, line]` (the Loki wire encoding). -/
def decodeLogEntry : Json → Option LogEntry
  | .obj fields =>
    match (List.lookup "ts" fields).bind decodeString,
          (List.lookup "line" fields).bind decodeString with
    | some ts, some line => some ⟨ts, line⟩
    | _, _ => none
  | .arr [t, l] =>
    match decodeString t, decodeString l with
    | some ts, some line => some ⟨ts, line⟩
    | _, _ => none
  | _ => none

/-- Decode the `values` field of a stream: a JSON array of entries. -/
def decodeEntries : Json → Option (List LogEntry)
  | .arr es => mapMO decodeLogEntry es
  | _ => none

/-- Decode one `Stream`: a JSON object with a `"stream"` field holding the
label map and a `"values"` field holding the array of entries, or serde's
positional sequence form, a two-element array `[labels, values]`. -/
def decodeStream : Json → Option Stream
  | .obj fields =>
    match (List.lookup "stream" fields).bind decodeLabels,
          (List.lookup "values" fields).bind decodeEntries with
    | some labels, some values => some ⟨labels, values⟩
    | _, _ => none
  | .arr [lj, vj] =>
    match decodeLabels lj, decodeEntries vj with
    | some labels, some values => some ⟨labels, values⟩
    | _, _ => none
  | _ => none

/-- Decode a `TailResponse`: a JSON object with a `"streams"` field holding
an array of streams, or serde's positional sequence form, a one-element
array `[streams]`; any other shape is a decode error. -/
def decodeTailResponse : Json → Option TailResponse
  | .obj fields =>
    match List.lookup "streams" fields with
    | some (.arr ss) => (mapMO decodeStream ss).map TailResponse.mk
    | _ => none
  | .arr [sj] =>
    match sj with
    | .arr ss => (mapMO decodeStream ss).map TailResponse.mk
    | _ => none
  | _ => none

/-- One raw websocket message, as seen by `start` after `into_data()`:
whether its byte payload is empty, and the result of lexing the bytes as
JSON (`none` when the bytes are malformed JSON). -/
structure RawMessage where
  isEmpty : Bool
  json : Option Json

/-- `serde_json::from_slice::<TailResponse>` on a message's bytes: fails
when the bytes are not valid JSON or the JSON has the wrong shape. -/
def from_slice (m : RawMessage) : Option TailResponse :=
  m.json.bind decodeTailResponse

/-! ### The wire encoding, for round-trip statements -/

/-- The wire encoding of one log entry: a two-element array `[ts, line]`. -/
def encodeEntry (e : LogEntry) : Json :=
  .arr [.str e.ts, .str e.line]

/-- The wire encoding of one stream. -/
def encodeStream (s : Stream) : Json :=
  .obj [("stream", .obj (s.labels.map fun p => (p.1, .str p.2))),
        ("values", .arr (s.values.map encodeEntry))]

/-- The wire encoding of a tail response. -/
def encodeResponse (r : TailResponse) : Json :=
  .obj [("streams", .arr (r.streams.map encodeStream))]

/-! ### Basic-auth header construction (loki.rs:109-124)

`get_stream` attaches `Authorization: Basic base64(user ":" password?)`
exactly when a username is configured; the password component is written
only when a password is configured. -/

/-- UTF-8 encoding of one character (the byte sequence `write!` produces). -/
def utf8Char (c : Char) : List Nat :=
  let n := c.toNat
  if n < 0x80 then [n]
  else if n < 0x800 then
    [0xC0 ||| (n >>> 6), 0x80 ||| (n &&& 0x3F)]
  else if n < 0x10000 then
    [0xE0 ||| (n >>> 12), 0x80 ||| ((n >>> 6) &&& 0x3F), 0x80 ||| (n &&& 0x3F)]
  else
    [0xF0 ||| (n >>> 18), 0x80 ||| ((n >>> 12) &&& 0x3F),
     0x80 ||| ((n >>> 6) &&& 0x3F), 0x80 ||| (n &&& 0x3F)]

/-- UTF-8 encoding of a string. -/
def utf8Bytes (s : String) : List Nat :=
  s.data.flatMap utf8Char

/-- The character table of `base64::STANDARD`. -/
def base64Char (n : Nat) : Char :=
  if n < 26 then Char.ofNat (65 + n)
  else if n < 52 then Char.ofNat (97 + (n - 26))
  else if n < 62 then Char.ofNat (48 + (n - 52))
  else if n = 62 then '+'
  else '/'

/-- Standard base64 with `=` padding (`base64::write::EncoderWriter` with
`base64::STANDARD`). -/
def base64Encode : List Nat → String
  | [] => ""
  | [a] =>
    String.mk [base64Char (a >>> 2), base64Char ((a &&& 3) <<< 4), '=', '=']
  | [a, b] =>
    String.mk [base64Char (a >>> 2), base64Char (((a &&& 3) <<< 4) ||| (b >>> 4)),
               base64Char ((b &&& 15) <<< 2), '=']
  | a :: b :: c :: rest =>
    String.mk [base64Char (a >>> 2), base64Char (((a &&& 3) <<< 4) ||| (b >>> 4)),
               base64Char (((b &&& 15) <<< 2) ||| (c >>> 6)), base64Char (c &&& 63)]
      ++ base64Encode rest

/-- The `Authorization` header attached by `get_stream` (loki.rs:109-124):
present exactly when a username is configured; the encoded payload is
`user ++ ":"` followed by the password when one is configured. -/
def basicAuthHeader (c : LokiConnectionInfo) : Option String :=
  match c.user with
  | none => none
  | some user =>
    let payload := user ++ ":" ++ (match c.pw with | some pw => pw | none => "")
    some ("Basic " ++ base64Encode (utf8Bytes payload))

/-! ### `get_stream` (loki.rs:93-130)

The URL library, the websocket handshake and the upstream's HTTP response
are external collaborators; their outcomes for one run, resp. one attempt,
are given by `EndpointModel` and `AttemptEnv`.  `get_stream` itself is the
faithful sequence of fallible steps: parse the endpoint URL, upgrade the
scheme to `wss`, build the request (query parameters and auth header),
perform the handshake, check the response status.  The nanosecond `start`
anchor is read from the clock at the moment of the call.  (The conversion
of the parsed URL into a client request and the `duration_since(UNIX_EPOCH)`
call are modelled as infallible: the former is plumbing over an
already-parsed URL, and the clock, a `Nat`, is never before the epoch.) -/

/-- Outcomes of the URL collaborator on the configured endpoint string,
fixed for a whole run: whether `url::Url::parse` succeeds and whether
`set_scheme("wss")` succeeds on the parsed URL. -/
structure EndpointModel where
  urlParses : Bool
  schemeUpgrades : Bool
  deriving Repr, DecidableEq

/-- Outcomes of the network collaborators for one connection attempt:
whether `connect_async` completes a handshake, and the HTTP status of the
upstream's response. -/
structure AttemptEnv where
  handshakeOk : Bool
  status : Nat
  deriving Repr, DecidableEq

/-- `http::StatusCode::is_informational`: 1xx. -/
def isInformational (s : Nat) : Bool :=
  100 ≤ s && s < 200

/-- `http::StatusCode::is_success`: 2xx. -/
def isSuccess (s : Nat) : Bool :=
  200 ≤ s && s < 300

/-- The websocket client request built by `get_stream` (loki.rs:100-124):
query parameters `query`, `limit=5000`, `start=<now in ns>`, plus the
optional basic-auth header. -/
structure Request where
  query : String
  limit : Nat
  start : Nat
  authHeader : Option String
  deriving Repr, DecidableEq

/-- The request `get_stream` builds at clock value `now`. -/
def mkRequest (self : LokiSourceReader) (now : Nat) : Request :=
  { query := self.query
    limit := 5000
    start := now
    authHeader := basicAuthHeader self.conn_info }

/-- Result of one `get_stream` call: a live subscription carrying the
request it was opened with, or an `anyhow` error (which `start` converts to
a fatal `Initialization` source error).  The error cases record whether the
failure happened before or after the request was built. -/
inductive ConnResult where
  | ok (req : Request)
  | errNoReq
  | errReq (req : Request)
  deriving Repr, DecidableEq

/-- `LokiSourceReader::get_stream` (loki.rs:93-130). -/
def LokiSourceReader.get_stream (self : LokiSourceReader) (ep : EndpointModel)
    (a : AttemptEnv) (now : Nat) : ConnResult :=
  if !ep.urlParses then .errNoReq
  else if !ep.schemeUpgrades then .errNoReq
  else
    let req := mkRequest self now
    if !a.handshakeOk then .errReq req
    else if !(isInformational a.status || isSuccess a.status) then .errReq req
    else .ok req

/-! ### The `start` run loop (loki.rs:135-199)

`start` loops: open a subscription with `get_stream` (a failure is a fatal
`Initialization` error); then, for each inbound websocket item: a read
error (`Err`) logs a warning, sleeps 5 seconds and reconnects; an empty
message is skipped; a message that fails to deserialize logs a warning and
is skipped; otherwise one sink transaction is opened and one row per log
entry is inserted in source order with the enclosing stream's labels — a
failed insert is a fatal `Persistence` error.  When the subscription ends
(`stream.next()` yields `None`) the loop reconnects immediately.

The world is a finite script: each connection attempt has the collaborator
outcomes for `get_stream` and, if it connects, the list of websocket items
the subscription yields.  Each item carries the nanoseconds `dt` that
elapse while awaiting it.  The sink is a predicate saying whether the n-th
insert attempt (counted over the whole run) succeeds. -/

/-- One item yielded by `stream.next()`: a message (`Ok`) or a transport
read error (`Err`), `dt` nanoseconds after the previous item. -/
inductive WsEvent where
  | msg (dt : Nat) (m : RawMessage)
  | fault (dt : Nat)

/-- One scripted connection attempt: the collaborator outcomes for
`get_stream`, and the items the subscription yields if it opens. -/
structure ConnAttempt where
  env : AttemptEnv
  events : List WsEvent

/-- `tokio::time::sleep(Duration::from_secs(5))` (loki.rs:150). -/
def reconnectDelaySecs : Nat := 5

/-- The same delay on the nanosecond clock. -/
def reconnectDelayNs : Nat := reconnectDelaySecs * 1000000000

/-- How a run of `start` ended: the finite script was consumed while the
loop was still running (`exhausted`), or a fatal error propagated out —
`SourceErrorDetails::Initialization` from `get_stream` (loki.rs:137-142) or
`SourceErrorDetails::Persistence` from a failed insert (loki.rs:187-194). -/
inductive Outcome where
  | exhausted
  | initError
  | persistError
  deriving Repr, DecidableEq

/-- One row handed to `tx.insert`: the code serializes this value to JSON
(`LokiRow`, loki.rs:168-186) and packs the string as the single datum of
the inserted row; the trace records the pre-serialization value. -/
structure LokiRow where
  timestamp : String
  line : String
  labels : List (String × String)
  deriving Repr, DecidableEq

/-- The rows the nested `for` loops of `start` (loki.rs:179-196) produce
for the streams of one decoded payload: one row per log entry, streams in
payload order, entries in stream order, each row carrying the enclosing
stream's label map. -/
def rowsOf (streams : List Stream) : List LokiRow :=
  streams.flatMap fun s => s.values.map fun v =>
    { timestamp := v.ts, line := v.line, labels := s.labels }

/-- Observable actions of one run of `start`: `get_stream` invocations
(`tries`), the requests built (`attempts`), reconnect sleeps in seconds
(`sleeps`), `warn!` diagnostics (`warns`), opened sink transactions
(`txs`), `serde_json::from_slice` invocations (`decodes`), rows handed to
`tx.insert` in order (`inserts`), and how the run ended. -/
structure Trace where
  tries : Nat
  attempts : List Request
  sleeps : List Nat
  warns : Nat
  txs : Nat
  decodes : Nat
  inserts : List LokiRow
  outcome : Outcome
  deriving Repr, DecidableEq

/-- Observable actions of the inner `while` loop over one subscription. -/
structure InnerStats where
  warns : Nat
  txs : Nat
  decodes : Nat
  inserts : List LokiRow
  deriving Repr, DecidableEq

/-- How the inner `while` loop over one subscription ended: the
subscription yielded `None` (reconnect immediately), a read error occurred
at the given clock value (warn, sleep, reconnect), or an insert failed
(fatal). -/
inductive InnerExit where
  | ended (t : Nat)
  | faulted (t : Nat)
  | persistFailed
  deriving Repr, DecidableEq

/-- The insert loop over one batch of rows (loki.rs:179-196): attempts
inserts in order, stopping at the first one the sink rejects.  Returns the
attempted rows (the rejected one included), the next insert counter, and
whether all inserts succeeded. -/
def insertRows (sink : Nat → Bool) (n : Nat) : List LokiRow → List LokiRow × Nat × Bool
  | [] => ([], n, true)
  | row :: rest =>
    if sink n then
      let r := insertRows sink (n + 1) rest
      (row :: r.1, r.2.1, r.2.2)
    else ([row], n + 1, false)

/-- The inner `while let Some(message) = stream.next()` loop
(loki.rs:143-197), over the scripted items of one subscription.  `n` is the
global insert counter and `t` the nanosecond clock. -/
def runInner (sink : Nat → Bool) (n t : Nat) : List WsEvent → InnerStats × Nat × InnerExit
  | [] => (⟨0, 0, 0, []⟩, n, .ended t)
  | .fault dt :: _ => (⟨1, 0, 0, []⟩, n, .faulted (t + dt))
  | .msg dt m :: rest =>
    if m.isEmpty then
      runInner sink n (t + dt) rest
    else
      match from_slice m with
      | none =>
        let r := runInner sink n (t + dt) rest
        ({ r.1 with warns := r.1.warns + 1, decodes := r.1.decodes + 1 }, r.2)
      | some resp =>
        let batch := insertRows sink n (rowsOf resp.streams)
        if batch.2.2 then
          let r := runInner sink batch.2.1 (t + dt) rest
          ({ r.1 with txs := r.1.txs + 1, decodes := r.1.decodes + 1,
                      inserts := batch.1 ++ r.1.inserts }, r.2)
        else
          (⟨0, 1, 1, batch.1⟩, batch.2.1, .persistFailed)

/-- `LokiSourceReader::start` (loki.rs:135-199), over a finite script of
connection attempts, started with insert counter `n` at clock value `t`. -/
def LokiSourceReader.start (self : LokiSourceReader) (ep : EndpointModel)
    (sink : Nat → Bool) (n t : Nat) : List ConnAttempt → Trace
  | [] => ⟨0, [], [], 0, 0, 0, [], .exhausted⟩
  | att :: rest =>
    match self.get_stream ep att.env t with
    | .errNoReq => ⟨1, [], [], 0, 0, 0, [], .initError⟩
    | .errReq req => ⟨1, [req], [], 0, 0, 0, [], .initError⟩
    | .ok req =>
      let inner := runInner sink n t att.events
      let st := inner.1
      match inner.2.2 with
      | .persistFailed =>
        ⟨1, [req], [], st.warns, st.txs, st.decodes, st.inserts, .persistError⟩
      | .ended tEnd =>
        let tr := self.start ep sink inner.2.1 tEnd rest
        ⟨1 + tr.tries, req :: tr.attempts, tr.sleeps, st.warns + tr.warns,
         st.txs + tr.txs, st.decodes + tr.decodes, st.inserts ++ tr.inserts, tr.outcome⟩
      | .faulted tFault =>
        let tr := self.start ep sink inner.2.1 (tFault + reconnectDelayNs) rest
        ⟨1 + tr.tries, req :: tr.attempts, reconnectDelaySecs :: tr.sleeps,
         st.warns + tr.warns, st.txs + tr.txs, st.decodes + tr.decodes,
         st.inserts ++ tr.inserts, tr.outcome⟩

/-- An `EndpointModel` on which the URL steps succeed. -/
def goodEp : EndpointModel := ⟨true, true⟩

/-- An `AttemptEnv` on which the handshake succeeds with status 200. -/
def okEnv : AttemptEnv := ⟨true, 200⟩

/-- A sink that accepts every insert. -/
def allOk : Nat → Bool := fun _ => true

/-! ### WindowedPoll (spec §4.3), modelled from the spec

Modelled from the spec: the WindowedPoll transport comes from repository
revisions of this module that are not under `src/`; only the streaming
variant is present there.  Per the spec, each fixed-interval tick issues
one range query whose outcome is either the decoded streams or a
`QueryError`; a `QueryError` on one tick is logged and the tick dropped,
and the ticker continues on schedule — the connector does not terminate on
a bad tick. -/

/-- Modelled from the spec: the outcome of one WindowedPoll tick — the
decoded streams of the tick's range query, or a `QueryError` (connection
failure, bad status, body failure or deserialization failure collapse to
this one error for the tick). -/
inductive TickOutcome where
  | ok (streams : List Stream)
  | queryError

/-- Modelled from the spec: observable actions of a WindowedPoll run — how
many scheduled ticks executed, logged `QueryError` diagnostics, and the
rows emitted, in tick order. -/
structure PollTrace where
  ticksRun : Nat
  warns : Nat
  inserts : List LokiRow
  deriving Repr, DecidableEq

/-- Modelled from the spec: the WindowedPoll tick loop.  A `QueryError`
tick is logged and dropped; an `ok` tick emits one row per log entry with
the enclosing stream's labels; the ticker always proceeds to the next
scheduled tick and never terminates the connector. -/
def pollRun : List TickOutcome → PollTrace
  | [] => ⟨0, 0, []⟩
  | .queryError :: rest =>
    let tr := pollRun rest
    ⟨tr.ticksRun + 1, tr.warns + 1, tr.inserts⟩
  | .ok ss :: rest =>
    let tr := pollRun rest
    ⟨tr.ticksRun + 1, tr.warns, rowsOf ss ++ tr.inserts⟩

/-! ### Helper lemmas -/

/-- `mapMO` over a mapped list succeeds pointwise. -/
theorem mapMO_map_eq_some {α γ : Type} (f : α → γ) (g : γ → Option α) :
    ∀ l : List α, (∀ x ∈ l, g (f x) = some x) → mapMO g (l.map f) = some l := by
  intro l
  induction l with
  | nil => intro _; rfl
  | cons x xs ih =>
    intro h
    have hx : g (f x) = some x := h x (by simp)
    have hxs : mapMO g (xs.map f) = some xs := ih fun y hy => h y (by simp [hy])
    simp only [List.map_cons, mapMO, hx, hxs]

/-- Decoding the wire encoding of one log entry gives it back. -/
theorem decodeLogEntry_encodeEntry (e : LogEntry) :
    decodeLogEntry (encodeEntry e) = some e := by
  cases e; rfl

/-- Decoding the wire encoding of a label map gives it back. -/
theorem decodeLabels_encode (labels : List (String × String)) :
    decodeLabels (.obj (labels.map fun p => (p.1, .str p.2))) = some labels := by
  simp only [decodeLabels]
  exact mapMO_map_eq_some _ _ labels fun x _ => rfl

/-- Decoding the wire encoding of one stream gives it back. -/
theorem decodeStream_encodeStream (s : Stream) :
    decodeStream (encodeStream s) = some s := by
  cases s with
  | mk labels values =>
    simp only [encodeStream, decodeStream, List.lookup]
    have h1 : decodeLabels (.obj (labels.map fun p => (p.1, .str p.2))) = some labels :=
      decodeLabels_encode labels
    have h2 : mapMO decodeLogEntry (values.map encodeEntry) = some values :=
      mapMO_map_eq_some _ _ values fun e _ => decodeLogEntry_encodeEntry e
    simp [decodeEntries, h1, h2]

/-- Decoding the wire encoding of a tail response gives it back
(the round-trip requirement of spec §6). -/
theorem decodeTailResponse_encodeResponse (r : TailResponse) :
    decodeTailResponse (encodeResponse r) = some r := by
  cases r with
  | mk streams =>
    simp only [encodeResponse, decodeTailResponse, List.lookup]
    have h : mapMO decodeStream (streams.map encodeStream) = some streams :=
      mapMO_map_eq_some _ _ streams fun s _ => decodeStream_encodeStream s
    simp [h]

/-- With a sink that accepts everything, the insert loop inserts every row. -/
theorem insertRows_allOk (rows : List LokiRow) :
    ∀ n, insertRows allOk n rows = (rows, n + rows.length, true) := by
  induction rows with
  | nil => intro n; simp [insertRows]
  | cons row rest ih =>
    intro n
    simp [insertRows, allOk, ih (n + 1)]
    omega

/-- With a sink whose first rejected attempt is number `k`, the insert loop
starting at counter `j ≤ k` attempts exactly the rows up to the rejected
one and reports failure. -/
theorem insertRows_failAt (k : Nat) (rows : List LokiRow) :
    ∀ j, j ≤ k → k - j < rows.length →
      insertRows (fun n => decide (n < k)) j rows =
        (rows.take (k - j + 1), k + 1, false) := by
  induction rows with
  | nil => intro j _ h; simp at h
  | cons row rest ih =>
    intro j hjk hlen
    by_cases hj : j < k
    · have h1 : j + 1 ≤ k := hj
      have h2 : k - (j + 1) < rest.length := by
        simp only [List.length_cons] at hlen; omega
      have hrec := ih (j + 1) h1 h2
      have hkj : k - j + 1 = (k - (j + 1) + 1) + 1 := by omega
      simp [insertRows, hj, hrec, hkj, List.take_succ_cons]
    · have hjeq : j = k := by omega
      subst hjeq
      simp [insertRows, List.take_succ_cons]

/-! ### Claims -/

/-- C7: for every connection config `c` and value `v`, `with_user none`
leaves the config unchanged (so `with_user none` after
`with_user (some "a")` still yields user `some "a"`), `with_user (some v)`
sets the user to `some v` and touches nothing else, and the same
set-if-present semantics holds for `with_password` and `with_endpoint`; no
override with an absent argument ever clears a previously set value. -/
theorem claim_C7 (c : LokiConnectionInfo) (v : String) :
    c.with_user none = c ∧
    c.with_password none = c ∧
    c.with_endpoint none = c ∧
    (c.with_user (some v)).user = some v ∧
    (c.with_user (some v)).pw = c.pw ∧
    (c.with_user (some v)).endpoint = c.endpoint ∧
    (c.with_password (some v)).pw = some v ∧
    (c.with_password (some v)).user = c.user ∧
    (c.with_endpoint (some v)).endpoint = v ∧
    ((c.with_user (some "a")).with_user none).user = some "a" ∧
    (((c.with_user (some "a")).with_user none).with_user (some "b")).user = some "b" := by
  refine ⟨?_, ?_, ?_, ?_, ?_, ?_, ?_, ?_, ?_, ?_, ?_⟩ <;>
    simp [LokiConnectionInfo.with_user, LokiConnectionInfo.with_password,
      LokiConnectionInfo.with_endpoint]

/-- C1: a successfully decoded payload with streams `S1(L1, E1), S2(L2, E2), …`
yields exactly one inserted row per log entry, in source order (streams in
payload order, entries in stream order), each row carrying the enclosing
stream's label map unmodified; one transaction is opened and the run
continues. -/
theorem claim_C1 (self : LokiSourceReader) (r : TailResponse) (dt t : Nat) :
    let tr := self.start goodEp allOk 0 t
      [⟨okEnv, [.msg dt ⟨false, some (encodeResponse r)⟩]⟩]
    tr.inserts =
      (r.streams.flatMap fun s => s.values.map fun v =>
        { timestamp := v.ts, line := v.line, labels := s.labels }) ∧
    tr.inserts.length = (r.streams.map fun s => s.values.length).sum ∧
    tr.txs = 1 ∧
    tr.decodes = 1 ∧
    tr.outcome = .exhausted := by
  intro tr
  have hdec : from_slice ⟨false, some (encodeResponse r)⟩ = some r := by
    simp [from_slice, decodeTailResponse_encodeResponse]
  have hins := insertRows_allOk (rowsOf r.streams) 0
  have htr : tr = ⟨1, [mkRequest self t], [], 0, 1, 1, rowsOf r.streams, .exhausted⟩ := by
    simp [tr, LokiSourceReader.start, LokiSourceReader.get_stream, goodEp, okEnv,
      isSuccess, mkRequest, runInner, hdec, hins]
  rw [htr]
  refine ⟨rfl, ?_, rfl, rfl, rfl⟩
  simp only [rowsOf, List.length_flatMap]
  exact congrArg List.sum (List.map_congr_left fun s _ => by simp)

/-- A concrete reader configuration, for witnesses. -/
def sampleReader : LokiSourceReader :=
  { conn_info := { user := some "user", pw := none, endpoint := "https://loki.example" }
    query := "{job=web}" }

/-- A concrete tail response with one stream and three entries, for
witnesses. -/
def sampleResponse : TailResponse :=
  { streams := [{ labels := [("app", "web")]
                  values := [⟨"1", "l1"⟩, ⟨"2", "l2"⟩, ⟨"3", "l3"⟩] }] }

/-- C2: if the sink rejects insert `k` of a batch, the emitter attempts no
insert after `k` in that batch (exactly the first `k + 1` rows are handed
to the sink), the failure is a fatal `Persistence` error, and the run loop
stops: no further message of the subscription and no further connection
attempt is processed. -/
theorem claim_C2 (self : LokiSourceReader) (r : TailResponse) (k t : Nat)
    (m2 : RawMessage) (att2 : ConnAttempt)
    (hk : k < (rowsOf r.streams).length) :
    let tr := self.start goodEp (fun n => decide (n < k)) 0 t
      [⟨okEnv, [.msg 0 ⟨false, some (encodeResponse r)⟩, .msg 0 m2]⟩, att2]
    tr.outcome = .persistError ∧
    tr.inserts = (rowsOf r.streams).take (k + 1) ∧
    tr.tries = 1 ∧ tr.txs = 1 ∧ tr.decodes = 1 ∧ tr.sleeps = [] := by
  intro tr
  have hdec : from_slice ⟨false, some (encodeResponse r)⟩ = some r := by
    simp [from_slice, decodeTailResponse_encodeResponse]
  have hins := insertRows_failAt k (rowsOf r.streams) 0 (Nat.zero_le k)
    (by simpa using hk)
  have htr : tr = ⟨1, [mkRequest self t], [], 0, 1, 1,
      (rowsOf r.streams).take (k + 1), .persistError⟩ := by
    simp [tr, LokiSourceReader.start, LokiSourceReader.get_stream, goodEp, okEnv,
      isSuccess, mkRequest, runInner, hdec, hins]
  rw [htr]
  exact ⟨rfl, rfl, rfl, rfl, rfl, rfl⟩

theorem claim_C2_witness :
    1 < (rowsOf sampleResponse.streams).length ∧
    (sampleReader.start goodEp (fun n => decide (n < 1)) 0 0
      [⟨okEnv, [.msg 0 ⟨false, some (encodeResponse sampleResponse)⟩,
                .msg 0 ⟨false, none⟩]⟩,
       ⟨okEnv, []⟩]).outcome = .persistError :=
  ⟨by decide,
   (claim_C2 sampleReader sampleResponse 1 0 ⟨false, none⟩ ⟨okEnv, []⟩ (by decide)).1⟩

/-- C4: a non-empty payload that fails to deserialize is non-fatal — it is
discarded with one diagnostic, yields zero records and no transaction, and
the connector proceeds: a malformed payload followed by a well-formed one
yields exactly the well-formed payload's records, with the run still
going. -/
theorem claim_C4 (self : LokiSourceReader) (r : TailResponse) (t : Nat)
    (bad : RawMessage) (h1 : bad.isEmpty = false) (h2 : from_slice bad = none) :
    let tr := self.start goodEp allOk 0 t
      [⟨okEnv, [.msg 0 bad, .msg 0 ⟨false, some (encodeResponse r)⟩]⟩]
    tr.outcome = .exhausted ∧
    tr.inserts = rowsOf r.streams ∧
    tr.txs = 1 ∧ tr.decodes = 2 ∧ tr.warns = 1 ∧ tr.tries = 1 := by
  intro tr
  have hdec : from_slice ⟨false, some (encodeResponse r)⟩ = some r := by
    simp [from_slice, decodeTailResponse_encodeResponse]
  have hins := insertRows_allOk (rowsOf r.streams) 0
  have htr : tr = ⟨1, [mkRequest self t], [], 1, 1, 2, rowsOf r.streams,
      .exhausted⟩ := by
    simp [tr, LokiSourceReader.start, LokiSourceReader.get_stream, goodEp, okEnv,
      isSuccess, mkRequest, runInner, h1, h2, hdec, hins]
  rw [htr]
  exact ⟨rfl, rfl, rfl, rfl, rfl, rfl⟩

theorem claim_C4_witness :
    (⟨false, none⟩ : RawMessage).isEmpty = false ∧
    from_slice ⟨false, none⟩ = none ∧
    (sampleReader.start goodEp allOk 0 0
      [⟨okEnv, [.msg 0 ⟨false, none⟩,
                .msg 0 ⟨false, some (encodeResponse sampleResponse)⟩]⟩]).inserts =
      rowsOf sampleResponse.streams :=
  ⟨rfl, rfl,
   (claim_C4 sampleReader sampleResponse 0 ⟨false, none⟩ rfl rfl).2.1⟩

/-- C5: an empty streaming message is a heartbeat and is skipped silently —
the inner loop continues exactly as if the message were absent, whatever
bytes-parse the payload would have had: decoding is never invoked, no
transaction is opened, no record is produced, no warning is logged and no
error is raised. -/
theorem claim_C5 (self : LokiSourceReader) (sink : Nat → Bool)
    (n t dt : Nat) (j : Option Json) (rest : List WsEvent) :
    runInner sink n t (.msg dt ⟨true, j⟩ :: rest) = runInner sink n (t + dt) rest ∧
    (let tr := self.start goodEp sink n t [⟨okEnv, [.msg dt ⟨true, j⟩]⟩]
     tr.decodes = 0 ∧ tr.txs = 0 ∧ tr.inserts = [] ∧ tr.warns = 0 ∧
     tr.outcome = .exhausted) := by
  constructor
  · simp [runInner]
  · intro tr
    have htr : tr = ⟨1, [mkRequest self t], [], 0, 0, 0, [], .exhausted⟩ := by
      simp [tr, LokiSourceReader.start, LokiSourceReader.get_stream, goodEp, okEnv,
        isSuccess, mkRequest, runInner]
    rw [htr]
    exact ⟨rfl, rfl, rfl, rfl, rfl⟩

/-- C8 counterexample: the payload `[[[{"app":"web"},[["1","l1"]]]]]` — a
JSON array, not an object, carrying no `"streams"` tag anywhere — decodes
successfully through serde_json's positional struct encoding, and even
yields a record; so it is false that every payload other than a
`"streams"`-tagged envelope yields a decode error. -/
theorem claim_C8_counterexample :
    decodeTailResponse
      (Json.arr [Json.arr [Json.arr [Json.obj [("app", Json.str "web")],
        Json.arr [Json.arr [Json.str "1", Json.str "l1"]]]]]) =
      some ⟨[⟨[("app", "web")], [⟨"1", "l1"⟩]⟩]⟩ := by
  rfl

/-- C8 (amended): decoding parses each payload with the serde-derived
`TailResponse` impl: malformed JSON always yields a decode error; a decode
can succeed only on a JSON object carrying a `"streams"` array or on
serde_json's positional encoding of the envelope, a one-element JSON
array; and a payload carrying the streams — in either form — yields
exactly its streams. -/
theorem claim_C8 (r : TailResponse) :
    (∀ b : Bool, from_slice ⟨b, none⟩ = none) ∧
    (∀ (j : Json) (r' : TailResponse), decodeTailResponse j = some r' →
      (∃ fields, j = Json.obj fields ∧
        ∃ ss, List.lookup "streams" fields = some (Json.arr ss)) ∨
      (∃ sj, j = Json.arr [sj])) ∧
    decodeTailResponse (encodeResponse r) = some r ∧
    decodeTailResponse (.arr [.arr (r.streams.map encodeStream)]) = some r ∧
    from_slice ⟨false, some (encodeResponse r)⟩ = some r := by
  refine ⟨fun _ => rfl, ?_, decodeTailResponse_encodeResponse r, ?_,
    by simp [from_slice, decodeTailResponse_encodeResponse]⟩
  · intro j r' hj
    cases j with
    | null => exact absurd hj (by simp [decodeTailResponse])
    | bool b => exact absurd hj (by simp [decodeTailResponse])
    | num n => exact absurd hj (by simp [decodeTailResponse])
    | str s => exact absurd hj (by simp [decodeTailResponse])
    | arr es =>
      match es, hj with
      | [sj], _ => exact Or.inr ⟨sj, rfl⟩
      | [], hj => exact absurd hj (by simp [decodeTailResponse])
      | a :: b :: es2, hj => exact absurd hj (by simp [decodeTailResponse])
    | obj fields =>
      refine Or.inl ⟨fields, rfl, ?_⟩
      cases hcase : List.lookup "streams" fields with
      | none => simp [decodeTailResponse, hcase] at hj
      | some v =>
        cases v with
        | arr ss => exact ⟨ss, rfl⟩
        | null => simp [decodeTailResponse, hcase] at hj
        | bool b => simp [decodeTailResponse, hcase] at hj
        | num n => simp [decodeTailResponse, hcase] at hj
        | str s => simp [decodeTailResponse, hcase] at hj
        | obj f2 => simp [decodeTailResponse, hcase] at hj
  · cases r with
    | mk streams =>
      have h : mapMO decodeStream (streams.map encodeStream) = some streams :=
        mapMO_map_eq_some _ _ streams fun s _ => decodeStream_encodeStream s
      simp [decodeTailResponse, h]

/-- After `nf` scripted attempts that each connect and immediately fault,
the run has made `nf` connection attempts whose start anchors are spaced
one fault-plus-delay apart, slept the fixed delay `nf` times, warned once
per fault, inserted nothing, and continues with the rest of the script at
the advanced clock. -/
theorem start_replicate_fault (self : LokiSourceReader) (sink : Nat → Bool)
    (m dt : Nat) (rest : List ConnAttempt) :
    ∀ (nf t : Nat),
      self.start goodEp sink m t (List.replicate nf ⟨okEnv, [.fault dt]⟩ ++ rest) =
        (let cont := self.start goodEp sink m (t + nf * (dt + reconnectDelayNs)) rest
         ⟨nf + cont.tries,
          ((List.range nf).map fun i => mkRequest self (t + i * (dt + reconnectDelayNs)))
            ++ cont.attempts,
          List.replicate nf reconnectDelaySecs ++ cont.sleeps,
          nf + cont.warns, cont.txs, cont.decodes, cont.inserts, cont.outcome⟩) := by
  intro nf
  induction nf with
  | zero =>
    intro t
    simp
  | succ nf ih =>
    intro t
    rw [List.replicate_succ, List.cons_append]
    have hstep : self.start goodEp sink m t
        ((⟨okEnv, [.fault dt]⟩ : ConnAttempt) ::
          (List.replicate nf ⟨okEnv, [.fault dt]⟩ ++ rest)) =
        (let tr := self.start goodEp sink m (t + dt + reconnectDelayNs)
          (List.replicate nf ⟨okEnv, [.fault dt]⟩ ++ rest)
         ⟨1 + tr.tries, mkRequest self t :: tr.attempts,
          reconnectDelaySecs :: tr.sleeps, 1 + tr.warns, tr.txs, tr.decodes,
          tr.inserts, tr.outcome⟩) := by
      simp [LokiSourceReader.start, LokiSourceReader.get_stream, goodEp, okEnv,
        isSuccess, runInner, Nat.add_assoc]
    rw [hstep, ih (t + dt + reconnectDelayNs)]
    have harith : t + dt + reconnectDelayNs + nf * (dt + reconnectDelayNs) =
        t + (nf + 1) * (dt + reconnectDelayNs) := by ring
    rw [harith]
    have hmap : (List.range (nf + 1)).map
        (fun i => mkRequest self (t + i * (dt + reconnectDelayNs))) =
        mkRequest self t ::
          (List.range nf).map (fun i =>
            mkRequest self (t + dt + reconnectDelayNs + i * (dt + reconnectDelayNs))) := by
      rw [List.range_succ_eq_map, List.map_cons, List.map_map]
      refine congrArg₂ List.cons (by simp) ?_
      refine List.map_congr_left fun i _ => ?_
      have h : t + (i + 1) * (dt + reconnectDelayNs) =
          t + dt + reconnectDelayNs + i * (dt + reconnectDelayNs) := by ring
      simp [Function.comp, Nat.succ_eq_add_one, h]
    rw [hmap, List.replicate_succ]
    simp only [List.cons_append]
    congr 1 <;> omega

/-- C3: a mid-stream transport read error does not terminate the connector:
the current subscription is discarded, the connector sleeps the fixed
5-second delay and makes exactly one new connection attempt whose `start`
anchor is the clock at reconnect time — the fault time plus the delay,
hence at least the fault time; this repeats without bound, with the same
fixed delay every time and no retry cap. -/
theorem claim_C3 (self : LokiSourceReader) (sink : Nat → Bool)
    (m dt t nf : Nat) (rest : List ConnAttempt) :
    (let cont := self.start goodEp sink m (t + dt + reconnectDelayNs) rest
     self.start goodEp sink m t (⟨okEnv, [.fault dt]⟩ :: rest) =
       ⟨1 + cont.tries, mkRequest self t :: cont.attempts,
        reconnectDelaySecs :: cont.sleeps, 1 + cont.warns, cont.txs,
        cont.decodes, cont.inserts, cont.outcome⟩) ∧
    (let tr := self.start goodEp sink m t (List.replicate nf ⟨okEnv, [.fault dt]⟩)
     tr.outcome = .exhausted ∧ tr.tries = nf ∧
     tr.sleeps = List.replicate nf reconnectDelaySecs ∧
     tr.attempts =
       (List.range nf).map fun i => mkRequest self (t + i * (dt + reconnectDelayNs))) ∧
    (∀ i : Nat, i + 1 < nf →
      (self.start goodEp sink m t
        (List.replicate nf ⟨okEnv, [.fault dt]⟩)).attempts.get? (i + 1) =
          some (mkRequest self
            ((t + i * (dt + reconnectDelayNs) + dt) + reconnectDelayNs)) ∧
      t + i * (dt + reconnectDelayNs) + dt ≤
        (t + i * (dt + reconnectDelayNs) + dt) + reconnectDelayNs) := by
  have hrep := start_replicate_fault self sink m dt [] nf t
  rw [List.append_nil] at hrep
  refine ⟨?_, ?_, ?_⟩
  · intro cont
    simp [LokiSourceReader.start, LokiSourceReader.get_stream, goodEp, okEnv,
      isSuccess, runInner, Nat.add_assoc, cont]
  · intro tr
    rw [show tr = self.start goodEp sink m t
        (List.replicate nf ⟨okEnv, [.fault dt]⟩) from rfl, hrep]
    simp [LokiSourceReader.start]
  · intro i hi
    rw [hrep]
    constructor
    · simp only [LokiSourceReader.start, List.append_nil, List.get?_eq_getElem?,
        List.getElem?_map]
      rw [List.getElem?_range (by omega : i + 1 < nf)]
      have h : t + (i + 1) * (dt + reconnectDelayNs) =
          t + i * (dt + reconnectDelayNs) + dt + reconnectDelayNs := by ring
      simp [h]
    · omega

theorem claim_C3_witness :
    (sampleReader.start goodEp allOk 0 0
      (List.replicate 2 ⟨okEnv, [.fault 7]⟩)).attempts.get? 1 =
        some (mkRequest sampleReader
          ((0 + 0 * (7 + reconnectDelayNs) + 7) + reconnectDelayNs)) ∧
    0 + 0 * (7 + reconnectDelayNs) + 7 ≤
      (0 + 0 * (7 + reconnectDelayNs) + 7) + reconnectDelayNs :=
  (claim_C3 sampleReader allOk 0 7 0 2 []).2.2 0 (by decide)

/-- C6: opening the subscription fails exactly when the endpoint does not
parse as a URL, the scheme cannot be upgraded to `wss`, the websocket
handshake fails, or the upstream's status is neither informational nor
success; such a failure is a fatal `Initialization` error that stops the
connector without any retry — also when it happens on a reconnect attempt
after any number of supervised stream faults. -/
theorem claim_C6 (self : LokiSourceReader) (ep2 : EndpointModel)
    (a2 a : AttemptEnv) (ep : EndpointModel) (now t nf : Nat)
    (evs : List WsEvent) (rest : List ConnAttempt) (sink : Nat → Bool)
    (ha : a.handshakeOk = false ∨
      (isInformational a.status = false ∧ isSuccess a.status = false))
    (hep : ep.urlParses = false ∨ ep.schemeUpgrades = false) :
    ((∃ req, self.get_stream ep2 a2 now = .ok req) ↔
      (ep2.urlParses = true ∧ ep2.schemeUpgrades = true ∧
        a2.handshakeOk = true ∧
        (isInformational a2.status || isSuccess a2.status) = true)) ∧
    (let tr := self.start goodEp sink 0 t
      (List.replicate nf ⟨okEnv, [.fault 0]⟩ ++ [⟨a, evs⟩])
     tr.outcome = .initError ∧ tr.tries = nf + 1 ∧ tr.txs = 0 ∧
     tr.decodes = 0 ∧ tr.inserts = []) ∧
    (let tr := self.start ep sink 0 t (⟨a2, evs⟩ :: rest)
     tr.outcome = .initError ∧ tr.tries = 1 ∧ tr.sleeps = [] ∧
     tr.inserts = []) := by
  refine ⟨?_, ?_, ?_⟩
  · constructor
    · rintro ⟨req, hreq⟩
      by_cases h1 : ep2.urlParses <;>
        by_cases h2 : ep2.schemeUpgrades <;>
        by_cases h3 : a2.handshakeOk <;>
        by_cases h4 : (isInformational a2.status || isSuccess a2.status) = true <;>
        simp_all [LokiSourceReader.get_stream]
    · rintro ⟨h1, h2, h3, h4⟩
      exact ⟨mkRequest self now, by simp [LokiSourceReader.get_stream, h1, h2, h3, h4]⟩
  · intro tr
    have hrep := start_replicate_fault self sink 0 0 [⟨a, evs⟩] nf t
    have hbad : self.start goodEp sink 0 (t + nf * (0 + reconnectDelayNs)) [⟨a, evs⟩] =
        ⟨1, [mkRequest self (t + nf * (0 + reconnectDelayNs))], [], 0, 0, 0, [],
          .initError⟩ := by
      rcases ha with h | h
      · simp [LokiSourceReader.start, LokiSourceReader.get_stream, goodEp, h, mkRequest]
      · simp [LokiSourceReader.start, LokiSourceReader.get_stream, goodEp, h.1, h.2,
          mkRequest]
    rw [show tr = self.start goodEp sink 0 t
        (List.replicate nf ⟨okEnv, [.fault 0]⟩ ++ [⟨a, evs⟩]) from rfl, hrep, hbad]
    simp
  · intro tr
    have htr : tr = ⟨1, [], [], 0, 0, 0, [], .initError⟩ := by
      rcases hep with h | h <;>
        simp [tr, LokiSourceReader.start, LokiSourceReader.get_stream, h]
    rw [htr]
    exact ⟨rfl, rfl, rfl, rfl⟩

theorem claim_C6_witness :
    ((∃ req, sampleReader.get_stream ⟨true, true⟩ ⟨true, 204⟩ 3 = .ok req) ↔
      ((⟨true, true⟩ : EndpointModel).urlParses = true ∧
        (⟨true, true⟩ : EndpointModel).schemeUpgrades = true ∧
        (⟨true, 204⟩ : AttemptEnv).handshakeOk = true ∧
        (isInformational 204 || isSuccess 204) = true)) ∧
    (sampleReader.start goodEp allOk 0 0
      (List.replicate 1 ⟨okEnv, [.fault 0]⟩ ++ [⟨⟨false, 200⟩, []⟩])).outcome =
        .initError :=
  ⟨(claim_C6 sampleReader ⟨true, true⟩ ⟨true, 204⟩ ⟨false, 200⟩ ⟨false, true⟩ 3 0 1
      [] [] allOk (Or.inl rfl) (Or.inl rfl)).1,
   (claim_C6 sampleReader ⟨true, true⟩ ⟨true, 204⟩ ⟨false, 200⟩ ⟨false, true⟩ 3 0 1
      [] [] allOk (Or.inl rfl) (Or.inl rfl)).2.1.1⟩

theorem claim_C8_witness :
    from_slice ⟨true, none⟩ = none ∧
    ((∃ fields, Json.arr [Json.arr []] = Json.obj fields ∧
        ∃ ss, List.lookup "streams" fields = some (Json.arr ss)) ∨
      (∃ sj, Json.arr [Json.arr []] = Json.arr [sj])) ∧
    decodeTailResponse (encodeResponse sampleResponse) = some sampleResponse :=
  ⟨(claim_C8 sampleResponse).1 true,
   (claim_C8 sampleResponse).2.1 (Json.arr [Json.arr []]) ⟨[]⟩ rfl,
   (claim_C8 sampleResponse).2.2.1⟩

/-- A request `get_stream` builds (whether the subsequent handshake and
status check succeed or not) is the one `mkRequest` describes for the
clock value of the call. -/
theorem get_stream_built (self : LokiSourceReader) (ep : EndpointModel)
    (a : AttemptEnv) (now : Nat) (req : Request)
    (h : self.get_stream ep a now = .ok req ∨
      self.get_stream ep a now = .errReq req) :
    req = mkRequest self now := by
  rcases h with h | h <;>
  · simp only [LokiSourceReader.get_stream] at h
    split_ifs at h <;> simp_all

/-- Every request a run builds carries the auth header computed from the
reader's connection config — the header is recomputed from the config at
each connection attempt. -/
theorem start_attempts_auth (self : LokiSourceReader) (ep : EndpointModel)
    (sink : Nat → Bool) :
    ∀ (world : List ConnAttempt) (n t : Nat),
      ∀ req ∈ (self.start ep sink n t world).attempts,
        req.authHeader = basicAuthHeader self.conn_info := by
  intro world
  induction world with
  | nil =>
    intro n t req h
    simp [LokiSourceReader.start] at h
  | cons att rest ih =>
    intro n t req hreq
    cases hgs : self.get_stream ep att.env t with
    | errNoReq =>
      simp [LokiSourceReader.start, hgs] at hreq
    | errReq req' =>
      have hb : req' = mkRequest self t := get_stream_built self ep att.env t req' (Or.inr hgs)
      simp [LokiSourceReader.start, hgs] at hreq
      rw [hreq, hb, mkRequest]
    | ok req' =>
      have hb : req' = mkRequest self t := get_stream_built self ep att.env t req' (Or.inl hgs)
      simp only [LokiSourceReader.start, hgs] at hreq
      cases hex : (runInner sink n t att.events).2.2 with
      | persistFailed =>
        simp only [hex, List.mem_singleton] at hreq
        rw [hreq, hb, mkRequest]
      | ended tEnd =>
        simp only [hex, List.mem_cons] at hreq
        rcases hreq with hreq | hreq
        · rw [hreq, hb, mkRequest]
        · exact ih (runInner sink n t att.events).2.1 tEnd req hreq
      | faulted tFault =>
        simp only [hex, List.mem_cons] at hreq
        rcases hreq with hreq | hreq
        · rw [hreq, hb, mkRequest]
        · exact ih (runInner sink n t att.events).2.1 (tFault + reconnectDelayNs) req hreq

/-- C9: the connection request carries `Authorization: Basic
base64(user:password)` precisely when a username is configured, the header
being recomputed from the config on every connection attempt; a configured
username without a password encodes `user:` (empty password component),
and a password without a username attaches no header. -/
theorem claim_C9 (c : LokiConnectionInfo) (self : LokiSourceReader)
    (u p e : String) (sink : Nat → Bool) (ep : EndpointModel)
    (n t : Nat) (world : List ConnAttempt) :
    (basicAuthHeader c).isSome = c.user.isSome ∧
    (∀ u', c.user = some u' →
      basicAuthHeader c =
        some ("Basic " ++ base64Encode (utf8Bytes (u' ++ ":" ++ c.pw.getD "")))) ∧
    basicAuthHeader ⟨some u, none, e⟩ =
      some ("Basic " ++ base64Encode (utf8Bytes (u ++ ":"))) ∧
    basicAuthHeader ⟨none, some p, e⟩ = none ∧
    (∀ req ∈ (self.start ep sink n t world).attempts,
      req.authHeader = basicAuthHeader self.conn_info) ∧
    base64Encode (utf8Bytes "user:") = "dXNlcjo=" := by
  refine ⟨?_, ?_, ?_, rfl, start_attempts_auth self ep sink world n t, by decide⟩
  · cases hu : c.user <;> simp [basicAuthHeader, hu]
  · intro u' hu
    cases hp : c.pw <;> simp [basicAuthHeader, hu, hp]
  · simp [basicAuthHeader]

theorem claim_C9_witness :
    basicAuthHeader ⟨some "user", none, "https://loki.example"⟩ =
      some ("Basic " ++ base64Encode (utf8Bytes ("user" ++ ":" ++
        (Option.getD none "")))) :=
  (claim_C9 ⟨some "user", none, "https://loki.example"⟩ sampleReader "u" "p" "e"
    allOk goodEp 0 0 []).2.1 "user" rfl

/-- C10: in windowed-poll mode (modelled from the spec), a `QueryError` on
one tick is logged and that tick's results dropped, but the connector does
not terminate: every scheduled tick still executes, and the tick after the
error runs on schedule and produces its records. -/
theorem claim_C10 (ss : List Stream) (rest ticks : List TickOutcome) :
    pollRun (.queryError :: .ok ss :: rest) =
      ⟨(pollRun rest).ticksRun + 1 + 1, (pollRun rest).warns + 1,
       rowsOf ss ++ (pollRun rest).inserts⟩ ∧
    (pollRun ticks).ticksRun = ticks.length := by
  constructor
  · rfl
  · induction ticks with
    | nil => rfl
    | cons tk rest2 ih =>
      cases tk <;> simp [pollRun, ih]

end Loki
